import Mathlib

/-! Verification of the LevelSelector logic of the NUCAPS Saharan-air-layer
tutorial notebook (`JSC_SAL_tutorial.ipynb`): the pressure-level index
dictionary (`PresLevIndex`), the exact-key level lookup, the coordinate
broadcast (`np.repeat` + `reshape`), and the quality-flag filter.

Pressure values are modelled as rationals; the numpy `dtype='i4'` cast used
by the notebook is integer truncation toward zero.
-/

/-- Error taxonomy of the spec: invalid (empty) input, level absent from the
index, and coordinate/grid shape mismatch. -/
inductive Err : Type where
  | InvalidInput : Err
  | LevelNotFound : Err
  | ShapeMismatch : Err
  deriving DecidableEq, Repr

/-- The numpy `np.array(values, dtype='i4')` conversion applied to each
pressure value in the notebook: a C-style cast, i.e. truncation toward zero.
For a rational `q = num / den` (with `den > 0`) this is `num / den` using
integer division, which in Lean rounds toward zero. -/
def toI4 (q : ℚ) : ℤ := q.num / (q.den : ℤ)

/-- The empty Python dictionary `PresLevIndex = {}`, viewed through its
lookup function. -/
def emptyDict : ℤ → Option ℕ := fun _ => none

/-- `d.update({k : v})` on a Python dictionary, viewed through its lookup
function: key `k` now maps to `v`, every other key is unchanged. -/
def dictInsert (d : ℤ → Option ℕ) (k : ℤ) (v : ℕ) : ℤ → Option ℕ :=
  fun q => if q = k then some v else d q

/-- The notebook loop
`for i, plev in enumerate(pressureLevs): PresLevIndex.update({plev : i})`
where `pressureLevs = np.array(levels, dtype='i4')`: each level is cast to
an integer key and the dictionary records the enumeration index, later
occurrences of a key overwriting earlier ones. -/
def PresLevIndex (levels : List ℚ) : ℤ → Option ℕ :=
  (levels.enum).foldl (fun d p => dictInsert d (toI4 p.2) p.1) emptyDict

/-- Modelled from the spec: `buildLevelIndex` (§4.1), the generalized module
operation absent from the notebook source. It fails with `InvalidInput` on an
empty sequence and otherwise returns the notebook's `PresLevIndex`
dictionary. -/
def buildLevelIndex (levels : List ℚ) : Except Err (ℤ → Option ℕ) :=
  if levels.isEmpty then Except.error Err.InvalidInput
  else Except.ok (PresLevIndex levels)

/-- Modelled from the spec: `nearestLevelIndex` (§4.1), the generalized module
operation absent from the notebook source. It rounds the target and performs
the notebook's exact dictionary lookup `PresLevIndex[target]`, failing with
`LevelNotFound` when the rounded target is not a key (Python `KeyError`). -/
def nearestLevelIndex (d : ℤ → Option ℕ) (target : ℚ) : Except Err ℕ :=
  match d (round target) with
  | some i => Except.ok i
  | none => Except.error Err.LevelNotFound

/-- `np.repeat(xs, k)`: each element repeated `k` times, contiguously. -/
def npRepeat {α : Type} (xs : List α) (k : ℕ) : List α :=
  (xs.map (List.replicate k)).flatten

/-- Row decomposition performed by `reshape(rows, cols)` once the size check
has passed: cut the flat list into `rows` consecutive chunks of `cols`. -/
def chunkRows {α : Type} (xs : List α) (rows cols : ℕ) : List (List α) :=
  match rows with
  | 0 => []
  | r + 1 => xs.take cols :: chunkRows (xs.drop cols) r cols

/-- The notebook line `np.repeat(coordinate, levelCount).reshape(profileCount,
levelCount)` generalized per spec §4.1: numpy `reshape` succeeds exactly when
the flat size equals the product of the requested shape, and raises otherwise
(`ShapeMismatch` in the spec taxonomy). -/
def broadcastCoordinate {α : Type} (coordinate : List α)
    (levelCount profileCount : ℕ) : Except Err (List (List α)) :=
  if (npRepeat coordinate levelCount).length = profileCount * levelCount then
    Except.ok (chunkRows (npRepeat coordinate levelCount) profileCount levelCount)
  else Except.error Err.ShapeMismatch

/-- One NUCAPS retrieval profile as the notebook consumes it: a geolocated
column with a per-profile quality flag and a per-level moisture column. -/
structure SwathProfile : Type where
  latitude : ℚ
  longitude : ℚ
  qualityFlag : ℤ
  h2o : List ℚ
  deriving DecidableEq, Repr

/-- A swath: profiles sharing one pressure-level sequence. -/
structure Swath : Type where
  pressureLevels : List ℚ
  profiles : List SwathProfile
  deriving DecidableEq, Repr

/-- The notebook line
`griddedViewAll.where(griddedViewAll[QualityFlag] == 0, drop=True)`
generalized over the flag value: keep exactly the profiles whose quality flag
equals `flag`, in order. -/
def filterQuality (s : Swath) (flag : ℤ) : Swath :=
  { s with profiles := s.profiles.filter (fun p => p.qualityFlag = flag) }

/-- The end-to-end scenario swath of spec §8: five profiles sharing pressure
levels `[1000, 850, 500, 496, 300]`, with quality flags `[0, 1, 0, 0, 1]`. -/
def exampleSwath : Swath :=
  { pressureLevels := [1000, 850, 500, 496, 300]
    profiles :=
      [ { latitude := 10, longitude := -80, qualityFlag := 0, h2o := [1, 2, 3, 4, 5] }
      , { latitude := 11, longitude := -81, qualityFlag := 1, h2o := [2, 3, 4, 5, 6] }
      , { latitude := 12, longitude := -82, qualityFlag := 0, h2o := [3, 4, 5, 6, 7] }
      , { latitude := 13, longitude := -83, qualityFlag := 0, h2o := [4, 5, 6, 7, 8] }
      , { latitude := 14, longitude := -84, qualityFlag := 1, h2o := [5, 6, 7, 8, 9] } ] }

/-! ## Structural lemmas about the dictionary construction -/

/-- The empty level list produces the empty dictionary. -/
theorem PresLevIndex_nil (k : ℤ) : PresLevIndex [] k = none := rfl

/-- Appending one level updates the dictionary at exactly that key, sending it
to the position of the appended level (last-write-wins). -/
theorem PresLevIndex_concat (levels : List ℚ) (x : ℚ) (k : ℤ) :
    PresLevIndex (levels ++ [x]) k =
      if k = toI4 x then some levels.length else PresLevIndex levels k := by
  unfold PresLevIndex
  rw [List.enum_append, List.foldl_append, List.enumFrom_singleton]
  simp [dictInsert]

/-- Key-set characterization: `k` is a key of the dictionary exactly when some
input level casts to `k`. -/
theorem PresLevIndex_isSome_iff (levels : List ℚ) (k : ℤ) :
    (PresLevIndex levels k).isSome ↔ k ∈ levels.map toI4 := by
  induction levels using List.reverseRecOn with
  | nil => simp [PresLevIndex_nil]
  | append_singleton l x ih =>
      rw [PresLevIndex_concat]
      by_cases hk : k = toI4 x
      · simp [hk]
      · simp [hk, ih]

/-- Lookup characterization: the dictionary maps `k` to `i` exactly when `i`
is the last position whose level casts to `k`. -/
theorem PresLevIndex_eq_some_iff (levels : List ℚ) (k : ℤ) (i : ℕ) :
    PresLevIndex levels k = some i ↔
      ∃ h : i < levels.length, toI4 levels[i] = k ∧
        ∀ j, ∀ hj : j < levels.length, i < j → toI4 levels[j] ≠ k := by
  induction levels using List.reverseRecOn with
  | nil => simp [PresLevIndex_nil]
  | append_singleton l x ih =>
      rw [PresLevIndex_concat]
      by_cases hk : k = toI4 x
      · simp only [hk, if_pos rfl]
        constructor
        · rintro h
          have hi : i = l.length := by
            injection h with h
            omega
          subst hi
          refine ⟨by simp, ?_, ?_⟩
          · simp [hk.symm]
          · intro j hj hlt
            simp at hj
            omega
        · rintro ⟨h, hget, hlast⟩
          have hi : i = l.length := by
            by_contra hne
            have hil : i < l.length := by
              simp at h
              omega
            have := hlast l.length (by simp) hil
            simp [hk.symm] at this
          simp [hi]
      · rw [if_neg hk, ih]
        constructor
        · rintro ⟨h, hget, hlast⟩
          have hi1 : i < (l ++ [x]).length := by
            simp
            omega
          refine ⟨hi1, ?_, ?_⟩
          · rwa [List.getElem_append_left h]
          · intro j hj hlt
            rcases Nat.lt_or_ge j l.length with hjl | hjl
            · rw [List.getElem_append_left hjl]
              exact hlast j hjl hlt
            · have hje : j = l.length := by
                simp at hj
                omega
              rw [List.getElem_concat_length l x j hje]
              exact fun hx => hk hx.symm
        · rintro ⟨h, hget, hlast⟩
          have hil : i < l.length := by
            rcases Nat.lt_or_ge i l.length with hil | hil
            · exact hil
            · exfalso
              have hie : i = l.length := by
                simp at h
                omega
              rw [List.getElem_concat_length l x i hie] at hget
              exact hk hget.symm
          refine ⟨hil, ?_, ?_⟩
          · rwa [List.getElem_append_left hil] at hget
          · intro j hj hlt
            have := hlast j (by simp; omega) hlt
            rwa [List.getElem_append_left hj] at this

/-- A non-empty level list passes the spec precondition and yields exactly the
notebook dictionary. -/
theorem buildLevelIndex_eq_ok (levels : List ℚ) (h : levels ≠ []) :
    buildLevelIndex levels = Except.ok (PresLevIndex levels) := by
  unfold buildLevelIndex
  simp [h]

/-- A dictionary produced by a successful `buildLevelIndex` is the notebook
dictionary of its level list. -/
theorem buildLevelIndex_ok_elim (levels : List ℚ) (d : ℤ → Option ℕ)
    (hd : buildLevelIndex levels = Except.ok d) : d = PresLevIndex levels := by
  unfold buildLevelIndex at hd
  by_cases h : levels.isEmpty
  · rw [if_pos h] at hd
    exact absurd hd (fun hc => Except.noConfusion hc)
  · rw [if_neg h] at hd
    exact (Except.ok.inj hd).symm

/-! ## Structural lemmas about the broadcast -/

/-- Unfolding of `np.repeat` on a cons cell. -/
theorem npRepeat_cons {α : Type} (x : α) (xs : List α) (k : ℕ) :
    npRepeat (x :: xs) k = List.replicate k x ++ npRepeat xs k := rfl

/-- `np.repeat` multiplies the length by the repetition count. -/
theorem npRepeat_length {α : Type} (xs : List α) (k : ℕ) :
    (npRepeat xs k).length = xs.length * k := by
  induction xs with
  | nil => simp [npRepeat]
  | cons x xs ih =>
      rw [npRepeat_cons]
      simp [ih, Nat.succ_mul, Nat.add_comm]

/-- Cutting the repeated flat list back into `length` rows recovers one
constant row per input element. -/
theorem chunkRows_npRepeat {α : Type} (xs : List α) (k : ℕ) :
    chunkRows (npRepeat xs k) xs.length k = xs.map (List.replicate k) := by
  induction xs with
  | nil => rfl
  | cons x xs ih =>
      rw [npRepeat_cons]
      show (List.replicate k x ++ npRepeat xs k).take k ::
          chunkRows ((List.replicate k x ++ npRepeat xs k).drop k) xs.length k =
        List.replicate k x :: xs.map (List.replicate k)
      rw [List.take_left' (List.length_replicate k x),
        List.drop_left' (List.length_replicate k x), ih]

/-- On a coordinate of the right length the broadcast succeeds and returns one
constant row per coordinate entry. -/
theorem broadcastCoordinate_eq_ok {α : Type} (coordinate : List α)
    (levelCount profileCount : ℕ) (h : coordinate.length = profileCount) :
    broadcastCoordinate coordinate levelCount profileCount =
      Except.ok (coordinate.map (List.replicate levelCount)) := by
  unfold broadcastCoordinate
  rw [if_pos (by rw [npRepeat_length, h])]
  rw [← h, chunkRows_npRepeat]

/-- Decidable equality on `Except`, used only to evaluate concrete runs of the
fallible operations. -/
instance {ε α : Type} [DecidableEq ε] [DecidableEq α] : DecidableEq (Except ε α) :=
  fun x y =>
    match x, y with
    | Except.ok a, Except.ok b =>
        if h : a = b then isTrue (by rw [h])
        else isFalse (fun hc => h (Except.ok.inj hc))
    | Except.error e, Except.error f =>
        if h : e = f then isTrue (by rw [h])
        else isFalse (fun hc => h (Except.error.inj hc))
    | Except.ok _, Except.error _ => isFalse (fun hc => Except.noConfusion hc)
    | Except.error _, Except.ok _ => isFalse (fun hc => Except.noConfusion hc)

/-! ## Claim theorems -/

/-- C1: `nearestLevelIndex` performs exact-rounded-key lookup, not
nearest-by-distance search: on any successfully built level index, if the
rounded target is a key it returns the stored index, and otherwise it fails
with `LevelNotFound`, regardless of numerically close levels in the index. -/
theorem nearestLevelIndex_exact_lookup (levels : List ℚ) (target : ℚ)
    (d : ℤ → Option ℕ) (_hd : buildLevelIndex levels = Except.ok d) :
    (∀ i : ℕ, d (round target) = some i →
      nearestLevelIndex d target = Except.ok i) ∧
    (d (round target) = none →
      nearestLevelIndex d target = Except.error Err.LevelNotFound) := by
  constructor
  · intro i hi
    unfold nearestLevelIndex
    rw [hi]
  · intro h
    unfold nearestLevelIndex
    rw [h]

/-- Witness for C1 at the spec seed test: the index over levels 504 and 496
has no key 500, so lookup of target 500 fails with `LevelNotFound`, although
key 496 is present at numeric distance 4. -/
theorem nearestLevelIndex_exact_lookup_witness :
    PresLevIndex [(504 : ℚ), 496] 496 = some 1 ∧
    PresLevIndex [(504 : ℚ), 496] (round (500 : ℚ)) = none ∧
    nearestLevelIndex (PresLevIndex [(504 : ℚ), 496]) 500 =
      Except.error Err.LevelNotFound := by
  have hr : round (500 : ℚ) = 500 := by norm_num [round_eq]
  refine ⟨by decide, by rw [hr]; decide, ?_⟩
  exact (nearestLevelIndex_exact_lookup [504, 496] 500
    (PresLevIndex [(504 : ℚ), 496])
    (buildLevelIndex_eq_ok _ (by decide))).2 (by rw [hr]; decide)

/-- Counterexample to C2 as stated: the level 496.63 rounds to the nearest
integer 497, yet 497 is not a key of the built index; the key actually
produced is the truncation 496. -/
theorem buildLevelIndex_round_counterexample :
    round ((49663 : ℚ) / 100) = 497 ∧
    buildLevelIndex [(49663 : ℚ) / 100] =
      Except.ok (PresLevIndex [(49663 : ℚ) / 100]) ∧
    PresLevIndex [(49663 : ℚ) / 100] 497 = none ∧
    PresLevIndex [(49663 : ℚ) / 100] 496 = some 0 := by
  refine ⟨by norm_num [round_eq], rfl, ?_, ?_⟩ <;>
    norm_num [PresLevIndex, dictInsert, emptyDict, toI4]

/-- C2 (amended): the keys of the mapping returned by `buildLevelIndex` are
exactly the `i4` casts (truncation toward zero, not round-to-nearest) of the
input levels, and every key records a position holding a level with that
cast. -/
theorem buildLevelIndex_keys (levels : List ℚ) (h : levels ≠ []) (k : ℤ)
    (i : ℕ) :
    ∃ d, buildLevelIndex levels = Except.ok d ∧
      ((d k).isSome ↔ k ∈ levels.map toI4) ∧
      (d k = some i → ∃ hi : i < levels.length, toI4 levels[i] = k) := by
  refine ⟨PresLevIndex levels, buildLevelIndex_eq_ok levels h,
    PresLevIndex_isSome_iff levels k, ?_⟩
  intro hk
  obtain ⟨hi, hget, _⟩ := (PresLevIndex_eq_some_iff levels k i).1 hk
  exact ⟨hi, hget⟩

/-- Witness for the amended C2 at levels 1000, 850, 500, 496, 300 with key 500
and index 2. -/
theorem buildLevelIndex_keys_witness :
    ∃ d, buildLevelIndex [(1000 : ℚ), 850, 500, 496, 300] = Except.ok d ∧
      ((d 500).isSome ↔ (500 : ℤ) ∈ [(1000 : ℚ), 850, 500, 496, 300].map toI4) ∧
      (d 500 = some 2 →
        ∃ hi : 2 < [(1000 : ℚ), 850, 500, 496, 300].length,
          toI4 ([(1000 : ℚ), 850, 500, 496, 300])[2] = 500) :=
  buildLevelIndex_keys [1000, 850, 500, 496, 300] (by decide) 500 2

/-- C3: duplicate keys resolve last-write-wins: if position `i` holds a level
with key `k` and no later position does, the mapping sends `k` to `i`. -/
theorem buildLevelIndex_last_write_wins (levels : List ℚ) (k : ℤ) (i : ℕ)
    (hi : i < levels.length) (hk : toI4 levels[i] = k)
    (hlast : ∀ j, ∀ hj : j < levels.length, i < j → toI4 levels[j] ≠ k) :
    ∃ d, buildLevelIndex levels = Except.ok d ∧ d k = some i := by
  have hne : levels ≠ [] := by
    intro he
    rw [he] at hi
    simp at hi
  exact ⟨PresLevIndex levels, buildLevelIndex_eq_ok levels hne,
    (PresLevIndex_eq_some_iff levels k i).2 ⟨hi, hk, hlast⟩⟩

/-- Witness for C3 at the spec example `[500, 500, 496]`: key 500 maps to
index 1 (the earlier occurrence at index 0 is overwritten) and key 496 maps
to index 2. -/
theorem buildLevelIndex_last_write_wins_witness :
    (∃ d, buildLevelIndex [(500 : ℚ), 500, 496] = Except.ok d ∧
      d 500 = some 1) ∧
    (∃ d, buildLevelIndex [(500 : ℚ), 500, 496] = Except.ok d ∧
      d 496 = some 2) := by
  constructor
  · exact buildLevelIndex_last_write_wins [500, 500, 496] 500 1 (by decide)
      (by decide)
      (fun j hj h1 => by
        have hj2 : j = 2 := by
          simp at hj
          omega
        subst hj2
        show toI4 (([(500 : ℚ), 500, 496]).get ⟨2, by decide⟩) ≠ 500
        decide)
  · exact buildLevelIndex_last_write_wins [500, 500, 496] 496 2 (by decide)
      (by decide)
      (fun j hj h1 => by
        simp at hj
        omega)

/-- C6: `buildLevelIndex` fails with `InvalidInput` exactly on the empty
sequence, and succeeds on every non-empty sequence. -/
theorem buildLevelIndex_invalid_iff (levels : List ℚ) :
    (buildLevelIndex levels = Except.error Err.InvalidInput ↔ levels = []) ∧
    (levels ≠ [] →
      buildLevelIndex levels = Except.ok (PresLevIndex levels)) := by
  constructor
  · constructor
    · intro h
      by_contra hne
      rw [buildLevelIndex_eq_ok levels hne] at h
      exact Except.noConfusion h
    · intro h
      subst h
      rfl
  · exact buildLevelIndex_eq_ok levels

/-- Witness for C6: the empty input fails with `InvalidInput`; the singleton
input `[500]` succeeds. -/
theorem buildLevelIndex_invalid_iff_witness :
    buildLevelIndex ([] : List ℚ) = Except.error Err.InvalidInput ∧
    buildLevelIndex [(500 : ℚ)] = Except.ok (PresLevIndex [(500 : ℚ)]) :=
  ⟨(buildLevelIndex_invalid_iff []).1.mpr rfl,
    (buildLevelIndex_invalid_iff [500]).2 (by decide)⟩

/-- C4: the broadcast equals the reference broadcast: with a coordinate of
length `profileCount`, the result is a `profileCount × levelCount` grid whose
entry at row `i`, column `j` is `coordinate[i]` for all `j`. -/
theorem broadcastCoordinate_reference {α : Type} (coordinate : List α)
    (levelCount profileCount : ℕ) (h : coordinate.length = profileCount) :
    ∃ g, broadcastCoordinate coordinate levelCount profileCount =
        Except.ok g ∧
      g.length = profileCount ∧
      (∀ row ∈ g, row.length = levelCount) ∧
      ∀ i j : ℕ, i < profileCount → j < levelCount →
        (g[i]?.bind fun row => row[j]?) = coordinate[i]? := by
  refine ⟨coordinate.map (List.replicate levelCount),
    broadcastCoordinate_eq_ok coordinate levelCount profileCount h, ?_, ?_, ?_⟩
  · simp [h]
  · intro row hrow
    obtain ⟨x, hx, rfl⟩ := List.mem_map.1 hrow
    simp
  · intro i j hi hj
    rw [List.getElem?_map]
    rw [← h] at hi
    rw [List.getElem?_eq_getElem hi]
    simp [List.getElem?_replicate, hj]

/-- Witness for C4 at the spec example: broadcasting `[10, 20, 30]` over four
levels yields the 3×4 grid with constant rows 10, 20, 30. -/
theorem broadcastCoordinate_reference_witness :
    (∃ g, broadcastCoordinate ([10, 20, 30] : List ℤ) 4 3 = Except.ok g ∧
      g.length = 3 ∧
      (∀ row ∈ g, row.length = 4) ∧
      ∀ i j : ℕ, i < 3 → j < 4 →
        (g[i]?.bind fun row => row[j]?) = ([10, 20, 30] : List ℤ)[i]?) ∧
    broadcastCoordinate ([10, 20, 30] : List ℤ) 4 3 =
      Except.ok [[10, 10, 10, 10], [20, 20, 20, 20], [30, 30, 30, 30]] :=
  ⟨broadcastCoordinate_reference [10, 20, 30] 4 3 (by decide), by rfl⟩

/-- Counterexample to C5 as stated: with `levelCount = 0` the repeated flat
list is empty, so the reshape to shape `(3, 0)` succeeds even though the
coordinate length 2 differs from `profileCount = 3`. -/
theorem broadcastCoordinate_shape_counterexample :
    ([10, 20] : List ℤ).length ≠ 3 ∧
    broadcastCoordinate ([10, 20] : List ℤ) 0 3 = Except.ok [[], [], []] :=
  ⟨by decide, rfl⟩

/-- C5 (amended): for positive `levelCount` the broadcast fails with
`ShapeMismatch` exactly when the coordinate length differs from
`profileCount`, and succeeds whenever they agree; for `levelCount = 0` both
flat sizes are zero and the reshape succeeds regardless of the coordinate
length. -/
theorem broadcastCoordinate_shape {α : Type} (coordinate : List α)
    (levelCount profileCount : ℕ) (hL : 0 < levelCount) :
    (broadcastCoordinate coordinate levelCount profileCount =
        Except.error Err.ShapeMismatch ↔
      coordinate.length ≠ profileCount) ∧
    (coordinate.length = profileCount →
      broadcastCoordinate coordinate levelCount profileCount =
        Except.ok (coordinate.map (List.replicate levelCount))) := by
  refine ⟨⟨?_, ?_⟩,
    broadcastCoordinate_eq_ok coordinate levelCount profileCount⟩
  · intro herr hlen
    rw [broadcastCoordinate_eq_ok coordinate levelCount profileCount hlen]
      at herr
    exact Except.noConfusion herr
  · intro hlen
    have hc : ¬ ((npRepeat coordinate levelCount).length =
        profileCount * levelCount) := by
      rw [npRepeat_length]
      intro hc
      exact hlen (Nat.eq_of_mul_eq_mul_right hL hc)
    unfold broadcastCoordinate
    rw [if_neg hc]

/-- Witness for the amended C5 at the spec example: `[10, 20]` against
`levelCount = 4`, `profileCount = 3` fails with `ShapeMismatch`. -/
theorem broadcastCoordinate_shape_witness :
    ((broadcastCoordinate ([10, 20] : List ℤ) 4 3 =
        Except.error Err.ShapeMismatch ↔
      ([10, 20] : List ℤ).length ≠ 3) ∧
    (([10, 20] : List ℤ).length = 3 →
      broadcastCoordinate ([10, 20] : List ℤ) 4 3 =
        Except.ok (([10, 20] : List ℤ).map (List.replicate 4)))) ∧
    broadcastCoordinate ([10, 20] : List ℤ) 4 3 =
      Except.error Err.ShapeMismatch :=
  ⟨broadcastCoordinate_shape [10, 20] 4 3 (by decide), by rfl⟩

/-- C7: every index stored by `buildLevelIndex` is in range, and an index is
in the value set exactly when its position is not overwritten by a later
occurrence of the same key. -/
theorem buildLevelIndex_value_set (levels : List ℚ) (h : levels ≠ [])
    (i : ℕ) :
    ∃ d, buildLevelIndex levels = Except.ok d ∧
      (∀ k : ℤ, ∀ v : ℕ, d k = some v → v < levels.length) ∧
      ((∃ k, d k = some i) ↔
        ∃ hi : i < levels.length, ∀ j, ∀ hj : j < levels.length, i < j →
          toI4 levels[j] ≠ toI4 levels[i]) := by
  refine ⟨PresLevIndex levels, buildLevelIndex_eq_ok levels h, ?_, ?_, ?_⟩
  · intro k v hk
    obtain ⟨hv, _, _⟩ := (PresLevIndex_eq_some_iff levels k v).1 hk
    exact hv
  · rintro ⟨k, hk⟩
    obtain ⟨hi, hget, hlast⟩ := (PresLevIndex_eq_some_iff levels k i).1 hk
    refine ⟨hi, ?_⟩
    intro j hj hij
    rw [hget]
    exact hlast j hj hij
  · rintro ⟨hi, hlast⟩
    exact ⟨toI4 levels[i],
      (PresLevIndex_eq_some_iff levels (toI4 levels[i]) i).2 ⟨hi, rfl, hlast⟩⟩

/-- Witness for C7 at `[500, 500, 496]` and index 2 (the surviving position
of key 496). -/
theorem buildLevelIndex_value_set_witness :
    ∃ d, buildLevelIndex [(500 : ℚ), 500, 496] = Except.ok d ∧
      (∀ k : ℤ, ∀ v : ℕ, d k = some v → v < [(500 : ℚ), 500, 496].length) ∧
      ((∃ k, d k = some 2) ↔
        ∃ hi : 2 < [(500 : ℚ), 500, 496].length,
          ∀ j, ∀ hj : j < [(500 : ℚ), 500, 496].length, 2 < j →
            toI4 ([(500 : ℚ), 500, 496])[j] ≠
              toI4 ([(500 : ℚ), 500, 496])[2]) :=
  buildLevelIndex_value_set [500, 500, 496] (by decide) 2

/-- C8: `buildLevelIndex` is deterministic and idempotent: equal inputs give
equal results, and any two successful dictionaries for the same input agree
on every key. -/
theorem buildLevelIndex_deterministic (l1 l2 : List ℚ) (h : l1 = l2) :
    buildLevelIndex l1 = buildLevelIndex l2 ∧
    ∀ d1 d2, buildLevelIndex l1 = Except.ok d1 →
      buildLevelIndex l2 = Except.ok d2 → ∀ k, d1 k = d2 k := by
  subst h
  refine ⟨rfl, ?_⟩
  intro d1 d2 h1 h2 k
  rw [buildLevelIndex_ok_elim l1 d1 h1, buildLevelIndex_ok_elim l1 d2 h2]

/-- Witness for C8 at `[500, 496]`. -/
theorem buildLevelIndex_deterministic_witness :
    buildLevelIndex [(500 : ℚ), 496] = buildLevelIndex [(500 : ℚ), 496] ∧
    ∀ d1 d2, buildLevelIndex [(500 : ℚ), 496] = Except.ok d1 →
      buildLevelIndex [(500 : ℚ), 496] = Except.ok d2 → ∀ k, d1 k = d2 k :=
  buildLevelIndex_deterministic [500, 496] [500, 496] rfl

/-- C9: the quality filter retains exactly the profiles whose flag equals the
given value: every retained profile has the flag, every flagged input profile
is retained, nothing else appears (the result is a sublist of the input), and
on the spec's end-to-end swath filtering to flag 0 keeps 3 of 5 profiles. -/
theorem filterQuality_spec (s : Swath) (flag : ℤ) :
    (∀ p ∈ (filterQuality s flag).profiles, p.qualityFlag = flag) ∧
    (∀ p ∈ s.profiles, p.qualityFlag = flag →
      p ∈ (filterQuality s flag).profiles) ∧
    ((filterQuality s flag).profiles).Sublist s.profiles ∧
    exampleSwath.profiles.length = 5 ∧
    (filterQuality exampleSwath 0).profiles.length = 3 := by
  refine ⟨?_, ?_, List.filter_sublist s.profiles, by decide, by decide⟩
  · intro p hp
    have hm := List.mem_filter.1 hp
    simpa using hm.2
  · intro p hp hf
    exact List.mem_filter.2 ⟨hp, by simpa using hf⟩

/-- Witness for C9: on the end-to-end swath the filter keeps 3 of 5
profiles. -/
theorem filterQuality_spec_witness :
    (filterQuality exampleSwath 0).profiles.length = 3 :=
  (filterQuality_spec exampleSwath 0).2.2.2.2

/-- C10: key consistency of the built index: every stored index points back
at a level whose integer cast equals its own key, and therefore a successful
`nearestLevelIndex` lookup returns the position of a level whose integer cast
equals the rounded target. -/
theorem buildLevelIndex_key_consistency (levels : List ℚ)
    (d : ℤ → Option ℕ) (hd : buildLevelIndex levels = Except.ok d)
    (target : ℚ) (i : ℕ) (hi : nearestLevelIndex d target = Except.ok i) :
    (∀ k : ℤ, ∀ j : ℕ, d k = some j →
      ∃ hj : j < levels.length, toI4 levels[j] = k) ∧
    ∃ h : i < levels.length, toI4 levels[i] = round target := by
  have hdp := buildLevelIndex_ok_elim levels d hd
  subst hdp
  have hkey : ∀ k : ℤ, ∀ j : ℕ, PresLevIndex levels k = some j →
      ∃ hj : j < levels.length, toI4 levels[j] = k := by
    intro k j hk
    obtain ⟨hj, hget, _⟩ := (PresLevIndex_eq_some_iff levels k j).1 hk
    exact ⟨hj, hget⟩
  refine ⟨hkey, ?_⟩
  have hlook : PresLevIndex levels (round target) = some i := by
    unfold nearestLevelIndex at hi
    cases hmatch : PresLevIndex levels (round target) with
    | none =>
        rw [hmatch] at hi
        exact Except.noConfusion hi
    | some v =>
        rw [hmatch] at hi
        injection hi with hv
        rw [hv]
  exact hkey (round target) i hlook

/-- Witness for C10 at the end-to-end scenario: levels 1000, 850, 500, 496,
300 and target 500 give index 2, whose level 500 casts to the rounded
target. -/
theorem buildLevelIndex_key_consistency_witness :
    (∀ k : ℤ, ∀ j : ℕ,
      PresLevIndex [(1000 : ℚ), 850, 500, 496, 300] k = some j →
      ∃ hj : j < [(1000 : ℚ), 850, 500, 496, 300].length,
        toI4 ([(1000 : ℚ), 850, 500, 496, 300])[j] = k) ∧
    ∃ h : 2 < [(1000 : ℚ), 850, 500, 496, 300].length,
      toI4 ([(1000 : ℚ), 850, 500, 496, 300])[2] = round (500 : ℚ) :=
  buildLevelIndex_key_consistency [1000, 850, 500, 496, 300]
    (PresLevIndex [(1000 : ℚ), 850, 500, 496, 300]) rfl 500 2
    (by unfold nearestLevelIndex
        rw [show round (500 : ℚ) = 500 by norm_num [round_eq]]
        decide)
